import Mathlib

/-!
Verification development for the `form_designer` plugin
(`src/form_designer/models.py`).

The Python source is shallowly embedded: strings are lists of characters,
Python dictionaries become association lists (Python 2 dictionaries have a
deterministic iteration order, which the association-list order models),
Django's `SortedDict` becomes an association list with insert-or-update
semantics that keeps an existing key at its original position, and fallible
operations return `Option`/`Except`.

The submission data round trip (`repr` at creation time, `eval` at read
time) is embedded by an explicit serializer (`reprDict`, mirroring the
format Python's `repr` produces for the dictionaries that arise from
`form.cleaned_data`: string keys, and string / boolean / list-of-string
values) and an explicit structured-literal parser (`evalPyDict`, modelling
the only behaviour of `eval` that is exercised here, namely reading back a
dictionary display).  The Python 2 `str`/`unicode` distinction (the `u`
repr prefix) is elided: both sides of the embedding use one string type.
-/

namespace FormDesigner

/-- Python strings are embedded as lists of characters. -/
abbrev Str := List Char

/-- Convenience conversion from Lean string literals. -/
def chars (s : String) : Str := s.data

/-- The values that occur in `form.cleaned_data` for the field types of
this application: strings (text, e-mail, long text, select, radio),
booleans (checkbox) and lists of strings (multiple select). -/
inductive PyVal where
  | str (s : Str)
  | bool (b : Bool)
  | list (xs : List Str)
deriving DecidableEq

/-- Lower-case hexadecimal digit, as produced by Python string escapes. -/
def toHexDigit (n : Nat) : Char :=
  if n < 10 then Char.ofNat (48 + n) else Char.ofNat (87 + n)

/-- Read back one lower-case hexadecimal digit. -/
def fromHexDigit (c : Char) : Option Nat :=
  if 48 ≤ c.toNat ∧ c.toNat ≤ 57 then some (c.toNat - 48)
  else if 97 ≤ c.toNat ∧ c.toNat ≤ 102 then some (c.toNat - 87)
  else none

/-- The `k` big-endian hexadecimal digits of `n` (modulo `16 ^ k`). -/
def hexDigits : Nat → Nat → Str
  | 0, _ => []
  | k + 1, n => toHexDigit (n / 16 ^ k % 16) :: hexDigits k n

/-- How Python's `repr` renders one character inside a string literal
delimited by the quote character `q`: backslash and the delimiter are
backslash-escaped, common control characters use their short escapes,
printable ASCII is emitted literally, and everything else becomes a
`\xHH`, `\uHHHH` or `\UHHHHHHHH` escape. -/
def escChar (q : Char) (c : Char) : Str :=
  if c = '\\' then ['\\', '\\']
  else if c = q then ['\\', q]
  else if c = '\n' then ['\\', 'n']
  else if c = '\r' then ['\\', 'r']
  else if c = '\t' then ['\\', 't']
  else if 32 ≤ c.toNat ∧ c.toNat < 127 then [c]
  else if c.toNat < 256 then '\\' :: 'x' :: hexDigits 2 c.toNat
  else if c.toNat < 65536 then '\\' :: 'u' :: hexDigits 4 c.toNat
  else '\\' :: 'U' :: hexDigits 8 c.toNat

/-- Body of a string literal: every character escaped for delimiter `q`. -/
def escBody (q : Char) (s : Str) : Str :=
  s.foldr (fun c acc => escChar q c ++ acc) []

/-- Python's quote choice for `repr` of a string: double quotes when the
string contains a single quote but no double quote, else single quotes. -/
def quoteFor (s : Str) : Char :=
  if '\x27' ∈ s ∧ ¬ '"' ∈ s then '"' else '\x27'

/-- `repr` of a Python string. -/
def reprStr (s : Str) : Str :=
  quoteFor s :: escBody (quoteFor s) s ++ [quoteFor s]

/-- `repr` of a list of strings, after the opening bracket: items separated
by a comma and a space, closed by the closing bracket. -/
def reprItems : List Str → Str
  | [] => [']']
  | x :: t => reprStr x ++ (if t.isEmpty then [']'] else ',' :: ' ' :: reprItems t)

/-- `repr` of one captured value. -/
def reprVal : PyVal → Str
  | .str s => reprStr s
  | .bool true => chars ("True")
  | .bool false => chars ("False")
  | .list xs => '[' :: reprItems xs

/-- `repr` of a dictionary, after the opening brace: `key: value` entries
separated by a comma and a space, closed by the closing brace. -/
def reprEntries : List (Str × PyVal) → Str
  | [] => ['\x7d']
  | (k, v) :: t =>
    reprStr k ++ ':' :: ' ' :: reprVal v ++
      (if t.isEmpty then ['\x7d'] else ',' :: ' ' :: reprEntries t)

/-- `repr(form.cleaned_data)`, the text stored in `FormSubmission.data`
by `Form.process` (models.py line 78). -/
def reprDict (m : List (Str × PyVal)) : Str :=
  '\x7b' :: reprEntries m

/-- Read `k` hexadecimal digits, folding them onto the accumulator. -/
def readHex : Nat → Nat → Str → Option (Nat × Str)
  | 0, acc, s => some (acc, s)
  | _ + 1, _, [] => none
  | k + 1, acc, d :: s =>
    match fromHexDigit d with
    | some h => readHex k (16 * acc + h) s
    | none => none

/-- Decode the escape sequence following a backslash: the escaped
character and the remaining input. -/
def readEscape : Str → Option (Char × Str)
  | [] => none
  | e :: cs =>
    if e = '\\' then some ('\\', cs)
    else if e = '\x27' then some ('\x27', cs)
    else if e = '"' then some ('"', cs)
    else if e = 'n' then some ('\n', cs)
    else if e = 'r' then some ('\r', cs)
    else if e = 't' then some ('\t', cs)
    else if e = 'x' then (readHex 2 0 cs).map (fun p => (Char.ofNat p.1, p.2))
    else if e = 'u' then (readHex 4 0 cs).map (fun p => (Char.ofNat p.1, p.2))
    else if e = 'U' then (readHex 8 0 cs).map (fun p => (Char.ofNat p.1, p.2))
    else none

/-- Parse the body of a string literal delimited by `q`, undoing the
escapes `repr` produces; returns the decoded string and the remaining
input after the closing delimiter.  The fuel argument bounds the number of
decoded characters and makes the recursion structural. -/
def parseStrBody (fuel : Nat) (q : Char) (s : Str) : Option (Str × Str) :=
  match fuel, s with
  | _, [] => none
  | fuel, c :: cs =>
    if c = q then some ([], cs)
    else
      match fuel with
      | 0 => none
      | fuel + 1 =>
        if c = '\\' then
          match readEscape cs with
          | some (d, cs2) => (parseStrBody fuel q cs2).map (fun p => (d :: p.1, p.2))
          | none => none
        else (parseStrBody fuel q cs).map (fun p => (c :: p.1, p.2))

/-- Parse the items of a list display after the opening bracket.  The fuel
argument bounds the number of items and makes the recursion structural. -/
def parseListItems : Nat → Str → Option (List Str × Str)
  | _, [] => none
  | fuel, c :: rest =>
    if c = ']' then some ([], rest)
    else if c = '\x27' ∨ c = '"' then
      match fuel with
      | 0 => none
      | fuel + 1 =>
        match parseStrBody rest.length c rest with
        | some (s, r) =>
          match r with
          | ',' :: ' ' :: r2 => (parseListItems fuel r2).map (fun p => (s :: p.1, p.2))
          | ']' :: r2 => some ([s], r2)
          | _ => none
        | none => none
    else none

/-- Parse one value: a string, boolean or list-of-strings literal. -/
def parseVal : Str → Option (PyVal × Str)
  | [] => none
  | c :: rest =>
    if c = '\x27' ∨ c = '"' then (parseStrBody rest.length c rest).map (fun p => (.str p.1, p.2))
    else if c = '[' then (parseListItems (rest.length + 1) rest).map (fun p => (.list p.1, p.2))
    else if c = 'T' then
      match rest with
      | 'r' :: 'u' :: 'e' :: r => some (.bool true, r)
      | _ => none
    else if c = 'F' then
      match rest with
      | 'a' :: 'l' :: 's' :: 'e' :: r => some (.bool false, r)
      | _ => none
    else none

/-- Parse the entries of a dictionary display after the opening brace. -/
def parseEntries : Nat → Str → Option (List (Str × PyVal) × Str)
  | _, [] => none
  | fuel, c :: rest =>
    if c = '\x7d' then some ([], rest)
    else if c = '\x27' ∨ c = '"' then
      match fuel with
      | 0 => none
      | fuel + 1 =>
        match parseStrBody rest.length c rest with
        | some (k, r) =>
          match r with
          | ':' :: ' ' :: r2 =>
            match parseVal r2 with
            | some (v, r3) =>
              match r3 with
              | ',' :: ' ' :: r4 => (parseEntries fuel r4).map (fun p => ((k, v) :: p.1, p.2))
              | c2 :: r4 => if c2 = '\x7d' then some ([(k, v)], r4) else none
              | _ => none
            | none => none
          | _ => none
        | none => none
    else none

/-- `eval(self.data)` as exercised by `FormSubmission.sorted_data`
(models.py line 170): read back a full dictionary display, demanding that
the whole text is consumed. -/
def evalPyDict (s : Str) : Option (List (Str × PyVal)) :=
  match s with
  | c :: rest =>
    if c = '\x7b' then
      match parseEntries (rest.length + 1) rest with
      | some (m, []) => some m
      | _ => none
    else none
  | [] => none

example : evalPyDict (reprDict [(chars ("a"), .str (chars ("x")))]) =
    some [(chars ("a"), .str (chars ("x")))] := by decide

example : evalPyDict (reprDict []) = some [] := by decide

example : evalPyDict (reprDict [(chars ("k"), .bool true), (chars ("m"), .list [chars ("u"), chars ("v")])]) =
    some [(chars ("k"), .bool true), (chars ("m"), .list [chars ("u"), chars ("v")])] := by decide

/-- Python `str()` of a captured value, as used by the `%s` formatting in
`formatted_data`: strings render as their text, booleans as `True`/`False`,
and lists via their `repr`. -/
def pyStr : PyVal → Str
  | .str s => s
  | .bool true => chars ("True")
  | .bool false => chars ("False")
  | .list xs => '[' :: reprItems xs

/-- The type tags of `FormField.FIELD_TYPES` (models.py lines 88-98).  The
model column constrains `FormField.type` to exactly these tags. -/
inductive FieldType where
  | text
  | email
  | longtext
  | checkbox
  | select
  | radio
  | multipleSelect
deriving DecidableEq

/-- The tag string stored in the `type` column for each field type. -/
def FieldType.tag : FieldType → Str
  | .text => chars ("text")
  | .email => chars ("email")
  | .longtext => chars ("longtext")
  | .checkbox => chars ("checkbox")
  | .select => chars ("select")
  | .radio => chars ("radio")
  | .multipleSelect => chars ("multiple-select")

/-- The `django.forms` field classes instantiated by the registry
(third column of `FIELD_TYPES`). -/
inductive DjangoFieldClass where
  | CharField
  | EmailField
  | BooleanField
  | ChoiceField
  | MultipleChoiceField
deriving DecidableEq

/-- Registry lookup: which `django.forms` class each tag constructs. -/
def fieldClassOf : FieldType → DjangoFieldClass
  | .text => .CharField
  | .email => .EmailField
  | .longtext => .CharField
  | .checkbox => .BooleanField
  | .select => .ChoiceField
  | .radio => .ChoiceField
  | .multipleSelect => .MultipleChoiceField

/-- `isinstance(obj, forms.ChoiceField)` for an instance of the given
class, per the Django class hierarchy (`MultipleChoiceField` subclasses
`ChoiceField`; the other classes do not). -/
def isChoiceFieldInstance : DjangoFieldClass → Bool
  | .ChoiceField => true
  | .MultipleChoiceField => true
  | _ => false

/-- One stored `FormField` row (models.py lines 87-121). -/
structure FormField where
  ordering : Int
  id : Nat
  title : Str
  name : Str
  ftype : FieldType
  choices : Str
  help_text : Str
  is_required : Bool
deriving DecidableEq

/-- One stored `Form` row (models.py lines 46-63).  `config` is the parsed
JSON mapping; the only recognised option is `email`, and the model keeps
just the address that `process` reads from `config['email']['email']`.
`fields` holds the owned `FormField` rows in database insertion order. -/
structure Form where
  title : Str
  config : List (Str × Str)
  fields : List FormField
deriving DecidableEq

/-- One stored `FormSubmission` row (models.py lines 154-159).  The
timestamp is kept as its three renderings used by `sorted_data`'s meta
keys (`self.submitted`, `.date()`, `.time()`). -/
structure FormSubmission where
  data : Str
  path : Str
  submittedFull : Str
  submittedDate : Str
  submittedTime : Str
deriving DecidableEq

/-- Python 2 whitespace, as recognised by `unicode.strip()` and `\s`. -/
def isPySpace (c : Char) : Bool :=
  c = ' ' ∨ c = '\t' ∨ c = '\n' ∨ c = '\r' ∨ c = '\x0b' ∨ c = '\x0c'

/-- Python `value.strip()`: drop whitespace from both ends. -/
def pyStrip (s : Str) : Str :=
  ((s.dropWhile isPySpace).reverse.dropWhile isPySpace).reverse

/-- Python `s.split(sep)` for a one-character separator: splits at every
occurrence; the empty string yields one empty piece. -/
def pySplit (sep : Char) : Str → List Str
  | [] => [[]]
  | c :: cs =>
    if c = sep then [] :: pySplit sep cs
    else
      match pySplit sep cs with
      | [] => [[c]]
      | s :: rest => (c :: s) :: rest

/-- ASCII letter or digit. -/
def isAsciiAlnum (c : Char) : Bool :=
  (48 ≤ c.toNat ∧ c.toNat ≤ 57) ∨ (97 ≤ c.toNat ∧ c.toNat ≤ 122) ∨
    (65 ≤ c.toNat ∧ c.toNat ≤ 90)

/-- A character replaced by a dash when slugifying: `[-\s]`. -/
def isDashOrSpace (c : Char) : Bool :=
  c = '-' ∨ isPySpace c

/-- Collapse every maximal run of dashes and whitespace into one dash
(the final `re.sub('[-\s]+', '-', value)` of slugify).  The flag records
whether the previous character belonged to such a run. -/
def collapseDashRuns : Bool → Str → Str
  | _, [] => []
  | inRun, c :: cs =>
    if isDashOrSpace c then
      if inRun then collapseDashRuns true cs
      else '-' :: collapseDashRuns true cs
    else c :: collapseDashRuns false cs

/-- Django's `slugify` (template.defaultfilters): drop non-ASCII, keep only
word characters, whitespace and dashes, strip, lower-case, then collapse
dash/whitespace runs into single dashes.  (The NFKD normalisation step is
not modelled; it only affects characters the ASCII step drops anyway.) -/
def slugify (s : Str) : Str :=
  let kept := s.filter (fun c =>
    c.toNat < 128 ∧ (isAsciiAlnum c ∨ c = '_' ∨ isPySpace c ∨ c = '-'))
  collapseDashRuns false ((pyStrip kept).map Char.toLower)

/-- `django.db.models.fields.BLANK_CHOICE_DASH`. -/
def BLANK_CHOICE_DASH : List (Str × Str) :=
  [([], chars ("---------"))]

/-- The per-choice tuples built by `get_choices` (models.py lines 132-133):
split the stored string on commas, and for each piece pair the slugified
stripped value with the stripped label. -/
def FormField.splitChoices (f : FormField) : List (Str × Str) :=
  (pySplit ',' f.choices).map (fun v => (slugify (pyStrip v), pyStrip v))

/-- `FormField.get_choices` (models.py lines 131-136). -/
def FormField.get_choices (f : FormField) : List (Str × Str) :=
  if f.is_required = false ∧ f.ftype = FieldType.select then
    BLANK_CHOICE_DASH ++ f.splitChoices
  else f.splitChoices

/-- The `ValidationError` raised by `FormField.clean`. -/
structure ValidationError where
  message : Str
deriving DecidableEq

instance : DecidableEq (Except ValidationError Unit) := fun a b =>
  match a, b with
  | .ok x, .ok y => isTrue (by cases x; cases y; rfl)
  | .error x, .error y => if h : x = y then isTrue (by rw [h]) else isFalse (by simp [h])
  | .ok _, .error _ => isFalse (by simp)
  | .error _, .ok _ => isFalse (by simp)

/-- `FormField.clean` (models.py lines 126-129): reject a non-empty
`choices` string when the instantiated field class is not a
`forms.ChoiceField`. -/
def FormField.clean (f : FormField) : Except ValidationError Unit :=
  if f.choices ≠ [] ∧ isChoiceFieldInstance (fieldClassOf f.ftype) = false then
    .error ⟨chars ("You can\x27t specify choices for ") ++ f.ftype.tag ++ chars (" fields")⟩
  else .ok ()

/-- The runtime validator/widget object built by `FormField.formfield`:
the constructed class together with the keyword arguments supplied
(models.py lines 145-151). -/
structure RuntimeField where
  fieldClass : DjangoFieldClass
  label : Str
  required : Bool
  choices : Option (List (Str × Str))
  help_text : Option Str
deriving DecidableEq

/-- `FormField.formfield` (models.py lines 145-151): `label` and
`required` always, `choices`/`help_text` only when non-empty. -/
def FormField.formfield (f : FormField) : RuntimeField :=
  { fieldClass := fieldClassOf f.ftype
    label := f.title
    required := f.is_required
    choices := if f.choices ≠ [] then some f.get_choices else none
    help_text := if f.help_text ≠ [] then some f.help_text else none }

/-- The `FormField.Meta.ordering` relation (models.py lines 117-118):
rows are ordered by `ordering`, ties broken by primary key. -/
def FieldOrder (a b : FormField) : Prop :=
  a.ordering < b.ordering ∨ (a.ordering = b.ordering ∧ a.id ≤ b.id)

instance : DecidableRel FieldOrder := fun a b => by
  unfold FieldOrder; infer_instance

/-- `self.fields.all()`: the owned rows, delivered by the ORM sorted by
`(ordering, id)` (a stable sort of the stored rows). -/
def Form.fieldsAll (form : Form) : List FormField :=
  form.fields.insertionSort FieldOrder

/-- Django `SortedDict.__setitem__`: updating an existing key keeps its
original position; a new key is appended. -/
def sdInsert {α : Type} : List (Str × α) → Str → α → List (Str × α)
  | [], k, v => [(k, v)]
  | (k0, v0) :: t, k, v =>
    if k0 = k then (k0, v) :: t else (k0, v0) :: sdInsert t k v

/-- Association-list lookup, modelling Python dictionary indexing over
the embedded dictionaries (whose keys are distinct). -/
def alookup {α : Type} : List (Str × α) → Str → Option α
  | [], _ => none
  | (k, v) :: t, key => if k = key then some v else alookup t key

/-- `Form.form` (models.py lines 68-74): iterate the owned fields in their
defined order and build the ordered name-to-field mapping that becomes the
synthesized form class's field set. -/
def Form.form (form : Form) : List (Str × RuntimeField) :=
  form.fieldsAll.foldl (fun acc f => sdInsert acc f.name f.formfield) []

/-- The meta keys `sorted_data` may merge in, from its `include` tuple. -/
structure IncludeOpts where
  datetime : Bool
  date : Bool
  time : Bool
  path : Bool
deriving DecidableEq

/-- `include=()`: no meta keys. -/
def noMeta : IncludeOpts := ⟨false, false, false, false⟩

/-- A value of the mapping `sorted_data` returns: a captured value looked
up for a current field (`data_dict.get` — `pyNone` when absent), a
captured value appended for a key with no matching field, or a meta
value. -/
inductive SDVal where
  | pyNone
  | ofVal (v : PyVal)
  | metaStr (s : Str)
deriving DecidableEq

/-- `data_dict.get(field.name)` (models.py line 174). -/
def fieldLookup (d : List (Str × PyVal)) (f : FormField) : SDVal :=
  match alookup d f.name with
  | some v => .ofVal v
  | none => .pyNone

/-- The body of `FormSubmission.sorted_data` (models.py lines 171-188),
applied to the already-deserialized dictionary `d`: one entry per current
field keyed by its title, then the entries of `d` whose key matches no
current field name, then the requested meta entries. -/
def sortedDataCore (form : Form) (sub : FormSubmission) (inc : IncludeOpts)
    (d : List (Str × PyVal)) : List (Str × SDVal) :=
  let fs := form.fieldsAll
  let names := fs.map (fun f => f.name)
  let step1 := fs.foldl (fun acc f => sdInsert acc f.title (fieldLookup d f)) []
  let step2 := d.foldl
    (fun acc (kv : Str × PyVal) =>
      if kv.1 ∈ names then acc else sdInsert acc kv.1 (.ofVal kv.2)) step1
  let step3 := if inc.datetime then sdInsert step2 (chars ("submitted")) (.metaStr sub.submittedFull) else step2
  let step4 := if inc.date then sdInsert step3 (chars ("date submitted")) (.metaStr sub.submittedDate) else step3
  let step5 := if inc.time then sdInsert step4 (chars ("time submitted")) (.metaStr sub.submittedTime) else step4
  if inc.path then sdInsert step5 (chars ("form path")) (.metaStr sub.path) else step5

/-- `FormSubmission.sorted_data` (models.py lines 164-188): `eval` the
stored text, then build the ordered mapping.  `none` models the exception
`eval` raises on text it cannot reconstruct. -/
def FormSubmission.sorted_data (sub : FormSubmission) (form : Form)
    (inc : IncludeOpts) : Option (List (Str × SDVal)) :=
  (evalPyDict sub.data).map (sortedDataCore form sub inc)

/-- `%s` rendering of one `sorted_data` value. -/
def SDVal.display : SDVal → Str
  | .pyNone => chars ("None")
  | .ofVal v => pyStr v
  | .metaStr s => s

/-- One line of `formatted_data` (models.py lines 195-197). -/
def renderLine (html : Bool) (k : Str) (v : SDVal) : Str :=
  if html then
    chars ("<dt>") ++ k ++ chars ("</dt><dd>") ++ v.display ++ chars ("</dd>") ++ ['\n']
  else k ++ ':' :: ' ' :: v.display ++ ['\n']

/-- `FormSubmission.formatted_data` (models.py lines 190-198): render the
sorted data line by line, skipping keys on the configured
`FORM_DESIGNER_HIDDEN_FIELDS` list, and wrap the HTML variant in `<dl>`. -/
def FormSubmission.formatted_data (sub : FormSubmission) (form : Form)
    (hidden : List Str) (html : Bool) : Option Str :=
  (sub.sorted_data form noMeta).map (fun sd =>
    let body := sd.foldl
      (fun acc kv => if kv.1 ∈ hidden then acc else acc ++ renderLine html kv.1 kv.2) []
    if html then chars ("<dl>") ++ body ++ chars ("</dl>") else body)

/-- An outbound notification handed to `send_mail` by `Form.process`. -/
structure EmailMsg where
  subject : Str
  body : Option Str
  recipient : Str
  failSilently : Bool
  delivered : Bool
deriving DecidableEq

/-- The observable outcome of one `Form.process` call. -/
structure ProcessResult where
  submissions : List FormSubmission
  emails : List EmailMsg
  message : Option Str
deriving DecidableEq

/-- The default acknowledgement returned when e-mail is configured. -/
def defaultThanks : Str := chars ("Thank you, your input has been received.")

/-- `Form.process` (models.py lines 76-84): always create exactly one
submission storing `repr(form.cleaned_data)` and the request path; when
the config has an `email` entry, attempt one notification (form title as
subject, the submission's formatted data as body, failures silenced) and
return the default acknowledgement.  `mailOk` is whether the outbound
delivery succeeds; with `fail_silently=True` it can only show up in the
notification's fate, never in the rest of the outcome. -/
def Form.process (form : Form) (hidden : List Str) (cleaned : List (Str × PyVal))
    (path : Str) (submittedFull submittedDate submittedTime : Str)
    (mailOk : Bool) : ProcessResult :=
  let sub : FormSubmission :=
    { data := reprDict cleaned
      path := path
      submittedFull := submittedFull
      submittedDate := submittedDate
      submittedTime := submittedTime }
  match alookup form.config (chars ("email")) with
  | some addr =>
    { submissions := [sub]
      emails := [{ subject := form.title
                   body := sub.formatted_data form hidden false
                   recipient := addr
                   failSilently := true
                   delivered := mailOk }]
      message := some defaultThanks }
  | none => { submissions := [sub], emails := [], message := none }

/-- A Python class object as seen by the startup code that builds
`FORM_CLASSES` (models.py lines 20-41): whether it is a subclass of
`django.forms.Form`, and whether the class object itself is an *instance*
of `django.forms.Form` — which, for ordinary class objects (whose
metaclass does not derive `forms.Form`), is always `false`. -/
structure PyClass where
  className : Str
  isSubclassOfForm : Bool
  isInstanceOfForm : Bool
deriving DecidableEq

/-- The startup computation of `FORM_CLASSES` (models.py lines 20-39) for
a configured `FORM_DESIGNER_CLASSES` list: fold `form_subclassed` with
`isinstance(cls, forms.Form)` over the resolved classes, and append the
generic `forms.Form` base when the flag stayed false. -/
def computeFormClasses (configured : List PyClass) (djangoFormBase : PyClass) :
    List PyClass :=
  let form_subclassed := configured.foldl (fun b c => b || c.isInstanceOfForm) false
  if form_subclassed then configured else configured ++ [djangoFormBase]

/-- Modelled from the spec: the configuration-surface rule for the form
base-class list — "must include a form-capable base transitively, else one
is appended automatically", i.e. the generic base is appended exactly when
no configured class transitively inherits `forms.Form`. -/
def formClassesSpec (configured : List PyClass) (djangoFormBase : PyClass) :
    List PyClass :=
  if configured.any (fun c => c.isSubclassOfForm) then configured
  else configured ++ [djangoFormBase]

/-- The database sort key of a field row: `(ordering, id)`. -/
def fieldKey (f : FormField) : Int × Nat := (f.ordering, f.id)

instance : IsTotal FormField FieldOrder :=
  ⟨fun a b => by unfold FieldOrder; omega⟩

instance : IsTrans FormField FieldOrder :=
  ⟨fun a b c hab hbc => by unfold FieldOrder at hab hbc ⊢; omega⟩

/-- Concatenated rendering of already-filtered `sorted_data` entries,
line by line. -/
def renderAll (html : Bool) : List (Str × SDVal) → Str
  | [] => []
  | kv :: t => renderLine html kv.1 kv.2 ++ renderAll html t

/-- Helper to build a concrete field row. -/
def mkField (o : Int) (i : Nat) (t n : String) (ty : FieldType) (ch : String)
    (req : Bool) : FormField :=
  { ordering := o, id := i, title := chars t, name := chars n, ftype := ty,
    choices := chars ch, help_text := [], is_required := req }

/-- `django.forms.Form` as a class object: subclass of itself, but not an
*instance* of itself. -/
def djangoFormBase : PyClass :=
  { className := chars ("django.forms.Form"), isSubclassOfForm := true,
    isInstanceOfForm := false }

/-- A user class deriving `django.forms.Form`: a subclass, but — like any
ordinary class object — not an instance of `forms.Form`. -/
def exSubclassedForm : PyClass :=
  { className := chars ("MyForm"), isSubclassOfForm := true,
    isInstanceOfForm := false }

/-- An optional `select` field with choices `"A, b ,C"`. -/
def exOptSelect : FormField := mkField 0 1 ("C") ("c") (FieldType.select) ("A, b ,C") false

/-- A required `select` field with choices `"A, b ,C"`. -/
def exReqSelect : FormField := mkField 0 1 ("C") ("c") (FieldType.select) ("A, b ,C") true

/-- An optional `select` field with an empty choices string. -/
def exOptSelectEmpty : FormField := mkField 0 1 ("C") ("c") (FieldType.select) ("") false

/-- A field whose display title collides with a stored data key. -/
def exField4 : FormField := mkField 0 1 ("x") ("f1") (FieldType.text) ("") true

def exForm4 : Form := { title := chars ("F"), config := [], fields := [exField4] }

def exData4 : List (Str × PyVal) :=
  [(chars ("f1"), PyVal.str (chars ("v1"))), (chars ("x"), PyVal.str (chars ("v2")))]

def exSub4 : FormSubmission :=
  { data := reprDict exData4, path := chars ("/p"), submittedFull := [],
    submittedDate := [], submittedTime := [] }

/-- The `E-mail` field of the worked example in the spec. -/
def exFieldEmail : FormField := mkField 0 1 ("E-mail") ("email") (FieldType.email) ("") true

def exFormEmail : Form :=
  { title := chars ("F"), config := [], fields := [exFieldEmail] }

def exDataEmail : List (Str × PyVal) :=
  [(chars ("email"), PyVal.str (chars ("a@b.com"))), (chars ("Name"), PyVal.str (chars ("X")))]

def exSubEmail : FormSubmission :=
  { data := reprDict exDataEmail, path := chars ("/p"), submittedFull := [],
    submittedDate := [], submittedTime := [] }

/-- A field whose title collides with an unmatched stored key. -/
def exField10 : FormField := mkField 0 1 ("T") ("a") (FieldType.text) ("") true

def exForm10 : Form := { title := chars ("F"), config := [], fields := [exField10] }

def exData10 : List (Str × PyVal) := [(chars ("T"), PyVal.str (chars ("x")))]

def exSub10 : FormSubmission :=
  { data := reprDict exData10, path := chars ("/p"), submittedFull := [],
    submittedDate := [], submittedTime := [] }

/-- A field with no captured value in the stored data. -/
def exField10w : FormField := mkField 0 1 ("U") ("m") (FieldType.text) ("") true

def exForm10w : Form := { title := chars ("F"), config := [], fields := [exField10w] }

def exSub10w : FormSubmission :=
  { data := reprDict [], path := chars ("/p"), submittedFull := [],
    submittedDate := [], submittedTime := [] }

/-- Field rows stored in insertion order `(2,"b")`, `(1,"a")`. -/
def exFieldB : FormField := mkField 2 1 ("B") ("b") (FieldType.text) ("") true

def exFieldA : FormField := mkField 1 2 ("A") ("a") (FieldType.text) ("") true

def exForm9 : Form := { title := chars ("F"), config := [], fields := [exFieldB, exFieldA] }

/-! ### The `repr`/`eval` round trip -/

lemma fromHex_toHex : ∀ n < 16, fromHexDigit (toHexDigit n) = some n := by decide

lemma char_toNat_lt (c : Char) : c.toNat < 4294967296 := by
  have h := c.valid
  rcases h with h | h
  · exact Nat.lt_trans h (by norm_num)
  · exact Nat.lt_trans h.2 (by norm_num)

lemma length_hexDigits (k n : Nat) : (hexDigits k n).length = k := by
  induction k generalizing n with
  | zero => rfl
  | succ k ih => simp [hexDigits, ih]

/-- Reading hexadecimal digits undoes printing them. -/
lemma readHex_hexDigits (k : Nat) :
    ∀ (acc n : Nat) (rest : Str),
      readHex k acc (hexDigits k n ++ rest) = some (16 ^ k * acc + n % 16 ^ k, rest) := by
  induction k with
  | zero => intro acc n rest; simp [hexDigits, readHex, Nat.mod_one]
  | succ k ih =>
    intro acc n rest
    have hd : n / 16 ^ k % 16 < 16 := Nat.mod_lt _ (by norm_num)
    simp only [hexDigits, List.cons_append, readHex, fromHex_toHex _ hd]
    have he : 16 ^ (k + 1) * acc + n % 16 ^ (k + 1) =
        16 ^ k * (16 * acc + n / 16 ^ k % 16) + n % 16 ^ k := by
      rw [pow_succ, Nat.mod_mul]
      ring
    rw [he]
    exact ih (16 * acc + n / 16 ^ k % 16) n rest

lemma readEscape_backslash (t : Str) : readEscape ('\\' :: t) = some ('\\', t) := by
  simp [readEscape]

lemma readEscape_squote (t : Str) : readEscape ('\x27' :: t) = some ('\x27', t) := by
  simp [readEscape]

lemma readEscape_dquote (t : Str) : readEscape ('"' :: t) = some ('"', t) := by
  simp [readEscape]

lemma readEscape_n (t : Str) : readEscape ('n' :: t) = some ('\n', t) := by
  simp [readEscape]

lemma readEscape_r (t : Str) : readEscape ('r' :: t) = some ('\r', t) := by
  simp [readEscape]

lemma readEscape_t (t : Str) : readEscape ('t' :: t) = some ('\t', t) := by
  simp [readEscape]

lemma readEscape_x (n : Nat) (t : Str) :
    readEscape ('x' :: (hexDigits 2 n ++ t)) = some (Char.ofNat (n % 256), t) := by
  simp [readEscape, readHex_hexDigits]

lemma readEscape_u (n : Nat) (t : Str) :
    readEscape ('u' :: (hexDigits 4 n ++ t)) = some (Char.ofNat (n % 65536), t) := by
  simp [readEscape, readHex_hexDigits]

lemma readEscape_U (n : Nat) (t : Str) :
    readEscape ('U' :: (hexDigits 8 n ++ t)) = some (Char.ofNat (n % 4294967296), t) := by
  simp [readEscape, readHex_hexDigits]

/-- Decoding undoes the escaping of a single character, spending one unit
of fuel. -/
lemma parseStrBody_escChar (q : Char) (hq : q = '\x27' ∨ q = '"') (c : Char)
    (fuel : Nat) (tail : Str) :
    parseStrBody (fuel + 1) q (escChar q c ++ tail) =
      (parseStrBody fuel q tail).map (fun p => (c :: p.1, p.2)) := by
  have hbq : ¬ (('\\' : Char) = q) := by rcases hq with rfl | rfl <;> decide
  by_cases h1 : c = '\\'
  · subst h1
    simp [escChar, parseStrBody, hbq, readEscape_backslash]
  by_cases h2 : c = q
  · subst h2
    rcases hq with rfl | rfl <;>
      simp [escChar, parseStrBody, hbq, readEscape_squote, readEscape_dquote]
  by_cases h3 : c = '\n'
  · subst h3
    simp [escChar, parseStrBody, h2, hbq, readEscape_n]
  by_cases h4 : c = '\r'
  · subst h4
    simp [escChar, parseStrBody, h2, hbq, readEscape_r]
  by_cases h5 : c = '\t'
  · subst h5
    simp [escChar, parseStrBody, h2, hbq, readEscape_t]
  by_cases h6 : 32 ≤ c.toNat ∧ c.toNat < 127
  · simp only [escChar, if_neg h1, if_neg h2, if_neg h3, if_neg h4, if_neg h5, if_pos h6,
      List.cons_append, List.nil_append, parseStrBody, if_neg h2, if_neg h1]
  by_cases h7 : c.toNat < 256
  · simp only [escChar, if_neg h1, if_neg h2, if_neg h3, if_neg h4, if_neg h5, if_neg h6,
      if_pos h7, List.cons_append, parseStrBody, if_neg hbq, if_pos rfl,
      readEscape_x c.toNat tail, Nat.mod_eq_of_lt h7, Char.ofNat_toNat]
    simp
  by_cases h8 : c.toNat < 65536
  · simp only [escChar, if_neg h1, if_neg h2, if_neg h3, if_neg h4, if_neg h5, if_neg h6,
      if_neg h7, if_pos h8, List.cons_append, parseStrBody, if_neg hbq, if_pos rfl,
      readEscape_u c.toNat tail, Nat.mod_eq_of_lt h8, Char.ofNat_toNat]
    simp
  · simp only [escChar, if_neg h1, if_neg h2, if_neg h3, if_neg h4, if_neg h5, if_neg h6,
      if_neg h7, if_neg h8, List.cons_append, parseStrBody, if_neg hbq, if_pos rfl,
      readEscape_U c.toNat tail, Nat.mod_eq_of_lt (char_toNat_lt c), Char.ofNat_toNat]
    simp

/-- Decoding undoes the escaping of a whole string body, given fuel for
every decoded character. -/
lemma parseStrBody_escBody (q : Char) (hq : q = '\x27' ∨ q = '"') :
    ∀ (s : Str) (fuel : Nat) (rest : Str), s.length ≤ fuel →
      parseStrBody fuel q (escBody q s ++ q :: rest) = some (s, rest) := by
  intro s
  induction s with
  | nil =>
    intro fuel rest _
    cases fuel <;> simp [escBody, parseStrBody]
  | cons c s ih =>
    intro fuel rest hfuel
    match fuel, hfuel with
    | fuel + 1, hfuel =>
      have hesc : escBody q (c :: s) = escChar q c ++ escBody q s := rfl
      rw [hesc, List.append_assoc, parseStrBody_escChar q hq,
        ih fuel rest (by simp only [List.length_cons] at hfuel; omega)]
      rfl

lemma length_escChar (q c : Char) : 1 ≤ (escChar q c).length := by
  unfold escChar
  repeat' split
  all_goals simp [length_hexDigits]

lemma length_escBody (q : Char) (s : Str) : s.length ≤ (escBody q s).length := by
  induction s with
  | nil => simp [escBody]
  | cons c s ih =>
    have hesc : escBody q (c :: s) = escChar q c ++ escBody q s := rfl
    rw [hesc]
    have := length_escChar q c
    simp only [List.length_append, List.length_cons]
    omega

lemma quoteFor_cases (s : Str) : quoteFor s = '\x27' ∨ quoteFor s = '"' := by
  unfold quoteFor
  split
  · right; rfl
  · left; rfl

lemma reprStr_append (s tail : Str) :
    reprStr s ++ tail = quoteFor s :: (escBody (quoteFor s) s ++ quoteFor s :: tail) := by
  simp [reprStr]

/-- Fuel bound: the printed form of a list of strings is at least as long
as the list. -/
lemma length_reprItems (xs : List Str) : xs.length ≤ (reprItems xs).length := by
  induction xs with
  | nil => simp [reprItems]
  | cons x t ih =>
    by_cases h : t.isEmpty
    · have ht : t = [] := List.isEmpty_iff.mp h
      subst ht; simp [reprItems]
    · simp only [reprItems, if_neg h]
      simp [List.length_append]
      omega

/-- Fuel bound: the printed form of a dictionary is at least as long as
its entry list. -/
lemma length_reprEntries (m : List (Str × PyVal)) : m.length ≤ (reprEntries m).length := by
  induction m with
  | nil => simp [reprEntries]
  | cons kv t ih =>
    obtain ⟨k, v⟩ := kv
    by_cases h : t.isEmpty
    · have ht : t = [] := List.isEmpty_iff.mp h
      subst ht; simp [reprEntries]; omega
    · simp only [reprEntries, if_neg h]
      simp [List.length_append]
      omega

/-- The fuel `parseListItems` and `parseEntries` hand to `parseStrBody`
is always sufficient for a printed string. -/
lemma strFuel_ok (q : Char) (s : Str) (t : Str) :
    s.length ≤ (escBody q s ++ q :: t).length := by
  have := length_escBody q s
  simp only [List.length_append, List.length_cons]
  omega

/-- Parsing undoes the printing of the items of a list display. -/
lemma parseListItems_reprItems :
    ∀ (xs : List Str) (fuel : Nat) (rest : Str), xs.length < fuel →
      parseListItems fuel (reprItems xs ++ rest) = some (xs, rest) := by
  intro xs
  induction xs with
  | nil =>
    intro fuel rest _
    cases fuel <;> simp [reprItems, parseListItems]
  | cons x t ih =>
    intro fuel rest hfuel
    match fuel, hfuel with
    | fuel + 1, hfuel =>
      have hq := quoteFor_cases x
      have hne : ¬ (quoteFor x = ']') := by rcases hq with h | h <;> rw [h] <;> decide
      by_cases ht : t.isEmpty
      · have ht2 : t = [] := List.isEmpty_iff.mp ht
        subst ht2
        simp only [reprItems, if_pos rfl]
        rw [List.append_assoc, reprStr_append]
        simp only [parseListItems, if_neg hne, if_pos hq]
        rw [parseStrBody_escBody (quoteFor x) hq x _ _ (strFuel_ok _ _ _)]
        simp
      · simp only [reprItems, if_neg ht]
        rw [List.append_assoc, reprStr_append]
        simp only [parseListItems, if_neg hne, if_pos hq]
        rw [parseStrBody_escBody (quoteFor x) hq x _ _ (strFuel_ok _ _ _)]
        simp only [List.cons_append]
        rw [ih fuel rest (by simpa using Nat.lt_of_succ_lt_succ hfuel)]
        rfl

/-- Parsing undoes the printing of one value. -/
lemma parseVal_reprVal (v : PyVal) (tail : Str) :
    parseVal (reprVal v ++ tail) = some (v, tail) := by
  match v with
  | .str s =>
    have hq := quoteFor_cases s
    rw [reprVal, reprStr_append]
    simp only [parseVal, if_pos hq]
    rw [parseStrBody_escBody (quoteFor s) hq s _ _ (strFuel_ok _ _ _)]
    rfl
  | .bool true => simp [reprVal, chars, parseVal]
  | .bool false => simp [reprVal, chars, parseVal]
  | .list xs =>
    rw [reprVal]
    simp only [List.cons_append, parseVal]
    norm_num
    rw [parseListItems_reprItems xs _ tail
      (by
        have h1 := length_reprItems xs
        have h2 : (reprItems xs ++ tail).length = (reprItems xs).length + tail.length :=
          List.length_append _ _
        omega)]
    rfl

/-- Parsing undoes the printing of the entries of a dictionary display. -/
lemma parseEntries_reprEntries :
    ∀ (m : List (Str × PyVal)) (fuel : Nat) (rest : Str), m.length < fuel →
      parseEntries fuel (reprEntries m ++ rest) = some (m, rest) := by
  intro m
  induction m with
  | nil =>
    intro fuel rest _
    cases fuel <;> simp [reprEntries, parseEntries]
  | cons kv t ih =>
    intro fuel rest hfuel
    obtain ⟨k, v⟩ := kv
    match fuel, hfuel with
    | fuel + 1, hfuel =>
      have hq := quoteFor_cases k
      have hne : ¬ (quoteFor k = '\x7d') := by rcases hq with h | h <;> rw [h] <;> decide
      by_cases ht : t.isEmpty
      · have ht2 : t = [] := List.isEmpty_iff.mp ht
        subst ht2
        simp only [reprEntries, if_pos rfl]
        rw [List.append_assoc, List.append_assoc, reprStr_append]
        simp only [parseEntries, if_neg hne, if_pos hq]
        rw [parseStrBody_escBody (quoteFor k) hq k _ _ (strFuel_ok _ _ _)]
        simp only [List.cons_append, List.nil_append]
        rw [parseVal_reprVal]
        rfl
      · simp only [reprEntries, if_neg ht]
        rw [List.append_assoc, List.append_assoc, reprStr_append]
        simp only [parseEntries, if_neg hne, if_pos hq]
        rw [parseStrBody_escBody (quoteFor k) hq k _ _ (strFuel_ok _ _ _)]
        simp only [List.cons_append]
        rw [parseVal_reprVal]
        simp only [List.cons_append]
        rw [ih fuel rest (by simp only [List.length_cons] at hfuel; omega)]
        rfl

/-- The round trip at the heart of the stored-data contract: `eval` of the
`repr` of a captured mapping reconstructs exactly that mapping. -/
lemma evalPyDict_reprDict (m : List (Str × PyVal)) :
    evalPyDict (reprDict m) = some m := by
  have h1 : m.length < (reprEntries m).length + 1 := by
    have := length_reprEntries m
    omega
  have h2 : reprEntries m = reprEntries m ++ [] := by simp
  simp only [reprDict, evalPyDict, if_pos rfl]
  rw [h2, parseEntries_reprEntries m _ [] (by simpa using h1)]
  simp

/-! ### `SortedDict` and lookup lemmas -/

/-- Inserting a fresh key into a `SortedDict` appends it. -/
lemma sdInsert_notMem {α : Type} (l : List (Str × α)) (k : Str) (v : α)
    (h : k ∉ l.map Prod.fst) : sdInsert l k v = l ++ [(k, v)] := by
  induction l with
  | nil => rfl
  | cons kv t ih =>
    obtain ⟨k0, v0⟩ := kv
    simp only [List.map_cons, List.mem_cons] at h
    push_neg at h
    have hne : ¬ (k0 = k) := fun he => h.1 (by simp [he])
    simp only [sdInsert, if_neg hne]
    rw [ih h.2]
    simp

/-- Folding `SortedDict` inserts of fresh, pairwise-distinct keys appends
the corresponding entries in order. -/
lemma foldl_sdInsert {α β : Type} (key : β → Str) (val : β → α) :
    ∀ (l : List β) (acc : List (Str × α)),
      (l.map key).Nodup → (∀ b ∈ l, key b ∉ acc.map Prod.fst) →
      l.foldl (fun a b => sdInsert a (key b) (val b)) acc =
        acc ++ l.map (fun b => (key b, val b)) := by
  intro l
  induction l with
  | nil => intro acc _ _; simp
  | cons b t ih =>
    intro acc hnd hdisj
    have hnd2 : key b ∉ t.map key ∧ (t.map key).Nodup := by
      rw [List.map_cons, List.nodup_cons] at hnd
      exact hnd
    simp only [List.foldl_cons]
    rw [sdInsert_notMem acc (key b) (val b) (hdisj b (by simp))]
    rw [ih (acc ++ [(key b, val b)]) hnd2.2 ?_]
    · simp
    intro b2 hb2
    simp only [List.map_append, List.mem_append, List.map_cons, List.map_nil,
      List.mem_cons, List.not_mem_nil]
    push_neg
    refine ⟨hdisj b2 (by simp [hb2]), ?_, fun h => h⟩
    intro hkey
    exact hnd2.1 (hkey ▸ List.mem_map_of_mem key hb2)

/-- A conditional fold that skips elements is a fold over the filter. -/
lemma foldl_if_filter {α β : Type} (P : β → Prop) [DecidablePred P]
    (g : α → β → α) :
    ∀ (l : List β) (acc : α),
      l.foldl (fun a b => if P b then a else g a b) acc =
        (l.filter (fun b => ¬ P b)).foldl g acc := by
  intro l
  induction l with
  | nil => intro acc; rfl
  | cons b t ih =>
    intro acc
    by_cases h : P b <;> simp [List.filter_cons, h, ih]

/-- Lookup distributes over append through the left list's keys. -/
lemma alookup_append_left {α : Type} (l1 l2 : List (Str × α)) (k : Str)
    (h : k ∈ l1.map Prod.fst) : alookup (l1 ++ l2) k = alookup l1 k := by
  induction l1 with
  | nil => simp at h
  | cons kv t ih =>
    obtain ⟨k0, v0⟩ := kv
    by_cases he : k0 = k
    · simp [alookup, he]
    · simp only [List.map_cons, List.mem_cons] at h
      rcases h with h | h
      · exact absurd h.symm he
      · simp only [List.cons_append, alookup, if_neg he]
        exact ih h

/-- Lookup in an entry list built by mapping a key function over elements
with pairwise-distinct keys finds the element's value. -/
lemma alookup_map_of_nodup {α β : Type} (key : β → Str) (val : β → α) :
    ∀ (l : List β) (b : β), b ∈ l → (l.map key).Nodup →
      alookup (l.map (fun x => (key x, val x))) (key b) = some (val b) := by
  intro l
  induction l with
  | nil => intro b hb; simp at hb
  | cons b0 t ih =>
    intro b hb hnd
    have hnd2 : key b0 ∉ t.map key ∧ (t.map key).Nodup := by
      rw [List.map_cons, List.nodup_cons] at hnd
      exact hnd
    rcases List.mem_cons.mp hb with h | h
    · subst h
      simp [alookup]
    · by_cases he : key b0 = key b
      · exact absurd (he ▸ List.mem_map_of_mem key h) hnd2.1
      · simp only [List.map_cons, alookup, if_neg he]
        exact ih b h hnd2.2

/-- With pairwise-distinct display titles, distinct stored keys and no
collision between unmatched stored keys and titles, `sorted_data`'s body
is exactly: one entry per current field in order, then the unmatched
stored entries in order. -/
lemma sortedDataCore_split (form : Form) (sub : FormSubmission)
    (d : List (Str × PyVal))
    (ht : ((form.fieldsAll).map (fun f => f.title)).Nodup)
    (hk : (d.map Prod.fst).Nodup)
    (hx : ∀ kv ∈ d, kv.1 ∉ (form.fieldsAll).map (fun f => f.name) →
      kv.1 ∉ (form.fieldsAll).map (fun f => f.title)) :
    sortedDataCore form sub noMeta d =
      (form.fieldsAll).map (fun f => (f.title, fieldLookup d f)) ++
        (d.filter (fun kv => kv.1 ∉ (form.fieldsAll).map (fun f => f.name))).map
          (fun kv => (kv.1, SDVal.ofVal kv.2)) := by
  have hstep1 :
      (form.fieldsAll).foldl (fun acc f => sdInsert acc f.title (fieldLookup d f)) [] =
        (form.fieldsAll).map (fun f => (f.title, fieldLookup d f)) := by
    simpa using foldl_sdInsert (fun f => f.title) (fun f => fieldLookup d f)
      form.fieldsAll [] ht (by simp)
  have hfilter :
      ((d.filter (fun kv => ¬ kv.1 ∈ (form.fieldsAll).map (fun f => f.name))).map
        Prod.fst).Nodup :=
    ((List.filter_sublist d).map Prod.fst).nodup hk
  have hstep2 :
      (d.filter (fun kv => ¬ kv.1 ∈ (form.fieldsAll).map (fun f => f.name))).foldl
          (fun acc kv => sdInsert acc kv.1 (SDVal.ofVal kv.2))
          ((form.fieldsAll).map (fun f => (f.title, fieldLookup d f))) =
        (form.fieldsAll).map (fun f => (f.title, fieldLookup d f)) ++
          (d.filter (fun kv => ¬ kv.1 ∈ (form.fieldsAll).map (fun f => f.name))).map
            (fun kv => (kv.1, SDVal.ofVal kv.2)) := by
    refine foldl_sdInsert (fun kv : Str × PyVal => kv.1)
      (fun kv : Str × PyVal => SDVal.ofVal kv.2) _ _ hfilter ?_
    intro kv hkv
    have hm := List.mem_filter.mp hkv
    have hnotname : kv.1 ∉ (form.fieldsAll).map (fun f => f.name) := by
      simpa using of_decide_eq_true hm.2
    have := hx kv hm.1 hnotname
    simpa [List.map_map, Function.comp] using this
  simp only [sortedDataCore, noMeta, if_neg Bool.false_ne_true, Bool.false_eq_true,
    if_false]
  rw [hstep1, foldl_if_filter (fun kv => kv.1 ∈ (form.fieldsAll).map (fun f => f.name))
    (fun acc kv => sdInsert acc kv.1 (SDVal.ofVal kv.2)) d]
  exact hstep2

/-- The skip-hidden rendering fold renders exactly the retained entries. -/
lemma formatted_fold (hidden : List Str) (html : Bool) :
    ∀ (sd : List (Str × SDVal)) (acc : Str),
      sd.foldl (fun a kv => if kv.1 ∈ hidden then a else a ++ renderLine html kv.1 kv.2) acc =
        acc ++ renderAll html (sd.filter (fun kv => kv.1 ∉ hidden)) := by
  intro sd
  induction sd with
  | nil => intro acc; simp [renderAll]
  | cons kv t ih =>
    intro acc
    by_cases h : kv.1 ∈ hidden
    · simp [List.filter_cons, h, ih]
    · simp [List.filter_cons, h, ih, renderAll, List.append_assoc]

/-- `FieldOrder` in both directions pins down the sort key. -/
lemma fieldOrder_antisymm_key {a b : FormField} (h1 : FieldOrder a b)
    (h2 : FieldOrder b a) : fieldKey a = fieldKey b := by
  unfold FieldOrder at h1 h2
  unfold fieldKey
  have ho : a.ordering = b.ordering := by omega
  have hi : a.id = b.id := by omega
  rw [ho, hi]

/-- Two sorted lists that are permutations of each other and have
pairwise-distinct sort keys are equal. -/
lemma sorted_perm_eq :
    ∀ (l1 l2 : List FormField), l1.Pairwise FieldOrder → l2.Pairwise FieldOrder →
      l1.Perm l2 → (l1.map fieldKey).Nodup → l1 = l2 := by
  intro l1
  induction l1 with
  | nil =>
    intro l2 _ _ hp _
    exact hp.nil_eq
  | cons a t ih =>
    intro l2 h1 h2 hp hnd
    cases l2 with
    | nil => exact (List.cons_ne_nil a t hp.eq_nil).elim
    | cons b t2 =>
      have hab : a = b := by
        by_contra hne
        have hbmem : b ∈ a :: t := hp.mem_iff.mpr (by simp)
        have hamem : a ∈ b :: t2 := hp.mem_iff.mp (by simp)
        have hbt : b ∈ t := by
          rcases List.mem_cons.mp hbmem with h | h
          · exact absurd h.symm hne
          · exact h
        have hat : a ∈ t2 := by
          rcases List.mem_cons.mp hamem with h | h
          · exact absurd h hne
          · exact h
        have h1ab : FieldOrder a b := (List.pairwise_cons.mp h1).1 b hbt
        have h2ba : FieldOrder b a := (List.pairwise_cons.mp h2).1 a hat
        have hkey := fieldOrder_antisymm_key h1ab h2ba
        have hnd2 : fieldKey a ∉ t.map fieldKey ∧ (t.map fieldKey).Nodup := by
          rw [List.map_cons, List.nodup_cons] at hnd
          exact hnd
        exact hnd2.1 (hkey ▸ List.mem_map_of_mem fieldKey hbt)
      subst hab
      have hnd2 : fieldKey a ∉ t.map fieldKey ∧ (t.map fieldKey).Nodup := by
        rw [List.map_cons, List.nodup_cons] at hnd
        exact hnd
      rw [ih t2 (List.pairwise_cons.mp h1).2 (List.pairwise_cons.mp h2).2
        hp.cons_inv hnd2.2]

/-! ### Claim theorems -/

/-- C1: storing a validated field-value mapping via `repr` (as
`Form.process` does) and deserializing the stored text (as
`sorted_data`'s `eval` does) reconstructs exactly the same mapping, so
`sorted_data` computes on the original key/value pairs in their original
order. -/
theorem c1_data_roundtrip :
    (∀ m : List (Str × PyVal), evalPyDict (reprDict m) = some m) ∧
    (∀ (form : Form) (inc : IncludeOpts) (m : List (Str × PyVal)) (p sf sd st : Str),
      FormSubmission.sorted_data
        { data := reprDict m, path := p, submittedFull := sf, submittedDate := sd,
          submittedTime := st } form inc =
      some (sortedDataCore form
        { data := reprDict m, path := p, submittedFull := sf, submittedDate := sd,
          submittedTime := st } inc m)) := by
  refine ⟨evalPyDict_reprDict, ?_⟩
  intro form inc m p sf sd st
  simp [FormSubmission.sorted_data, evalPyDict_reprDict]

/-- C2: the claim matches the startup code's own comments ("check if any
of the classes parsed so far inherit from Form"), but the code tests
`isinstance(cls, forms.Form)`, which is false for every ordinary class
object; so even when a configured class is a transitive subclass of
`forms.Form`, the generic base is still appended, while the claimed rule
appends nothing. -/
theorem c2_form_classes_isinstance_bug :
    exSubclassedForm.isSubclassOfForm = true ∧
    computeFormClasses [exSubclassedForm] djangoFormBase =
      [exSubclassedForm, djangoFormBase] ∧
    formClassesSpec [exSubclassedForm] djangoFormBase = [exSubclassedForm] ∧
    computeFormClasses [exSubclassedForm] djangoFormBase ≠
      formClassesSpec [exSubclassedForm] djangoFormBase := by
  decide

/-- C3: `Form.process` always creates exactly one submission, storing
`repr(cleaned_data)` and the request path; exactly one notification is
attempted iff the config has an `email` entry, with the form title as
subject, the created submission's formatted data as body and failures
silenced, in which case the default acknowledgement message is returned;
and neither the created submission nor the returned message depends on
whether the delivery succeeds. -/
theorem c3_process_spec (form : Form) (hidden : List Str)
    (cleaned : List (Str × PyVal)) (path sf sd st : Str) (mailOk : Bool) :
    (form.process hidden cleaned path sf sd st mailOk).submissions.length = 1 ∧
    (∀ sub ∈ (form.process hidden cleaned path sf sd st mailOk).submissions,
      sub.data = reprDict cleaned ∧ sub.path = path) ∧
    ((form.process hidden cleaned path sf sd st mailOk).emails.length = 1 ↔
      (alookup form.config (chars ("email"))).isSome) ∧
    (∀ msg ∈ (form.process hidden cleaned path sf sd st mailOk).emails,
      msg.subject = form.title ∧ msg.failSilently = true ∧ msg.body.isSome ∧
      ∀ sub ∈ (form.process hidden cleaned path sf sd st mailOk).submissions,
        msg.body = sub.formatted_data form hidden false) ∧
    ((form.process hidden cleaned path sf sd st mailOk).message = some defaultThanks ↔
      (alookup form.config (chars ("email"))).isSome) ∧
    (form.process hidden cleaned path sf sd st true).submissions =
      (form.process hidden cleaned path sf sd st false).submissions ∧
    (form.process hidden cleaned path sf sd st true).message =
      (form.process hidden cleaned path sf sd st false).message := by
  have hbody : (FormSubmission.formatted_data
      { data := reprDict cleaned, path := path, submittedFull := sf,
        submittedDate := sd, submittedTime := st } form hidden false).isSome := by
    simp [FormSubmission.formatted_data, FormSubmission.sorted_data, evalPyDict_reprDict]
  cases halk : alookup form.config (chars ("email")) with
  | none => simp [Form.process, halk]
  | some addr => simp [Form.process, halk, hbody]

/-- C4 (amended): provided the current fields' display titles are pairwise
distinct and no unmatched stored key coincides with a display title,
`sorted_data()` is exactly: one entry per current field, keyed by its
display title in `(ordering, id)` order, followed by the stored entries
whose key matches no current field name, under their raw keys with their
stored values. -/
theorem c4_sorted_data_split (form : Form) (sub : FormSubmission)
    (d : List (Str × PyVal))
    (hd : evalPyDict sub.data = some d)
    (ht : ((form.fieldsAll).map (fun f => f.title)).Nodup)
    (hk : (d.map Prod.fst).Nodup)
    (hx : ∀ kv ∈ d, kv.1 ∉ (form.fieldsAll).map (fun f => f.name) →
      kv.1 ∉ (form.fieldsAll).map (fun f => f.title)) :
    sub.sorted_data form noMeta =
      some ((form.fieldsAll).map (fun f => (f.title, fieldLookup d f)) ++
        (d.filter (fun kv => kv.1 ∉ (form.fieldsAll).map (fun f => f.name))).map
          (fun kv => (kv.1, SDVal.ofVal kv.2))) := by
  simp [FormSubmission.sorted_data, hd, sortedDataCore_split form sub d ht hk hx]

/-- C4 counterexample: when an unmatched stored key (`"x"`) equals a
field's display title, the second loop of `sorted_data` overwrites the
field's entry in place instead of appending, so the claimed shape fails:
the result is one entry carrying the stored value, not the field's entry
followed by an appended pair. -/
theorem c4_counterexample :
    FormSubmission.sorted_data exSub4 exForm4 noMeta =
      some [(chars ("x"), SDVal.ofVal (PyVal.str (chars ("v2"))))] ∧
    ¬ (FormSubmission.sorted_data exSub4 exForm4 noMeta =
      some ((exForm4.fieldsAll).map (fun f => (f.title, fieldLookup exData4 f)) ++
        (exData4.filter (fun kv => kv.1 ∉ (exForm4.fieldsAll).map (fun f => f.name))).map
          (fun kv => (kv.1, SDVal.ofVal kv.2)))) := by
  decide

/-- C4 witness: a collision-free submission, with one matched field and
one unmatched key appended after it. -/
theorem c4_witness :
    FormSubmission.sorted_data exSubEmail exFormEmail noMeta =
      some ((exFormEmail.fieldsAll).map (fun f => (f.title, fieldLookup exDataEmail f)) ++
        (exDataEmail.filter
          (fun kv => kv.1 ∉ (exFormEmail.fieldsAll).map (fun f => f.name))).map
          (fun kv => (kv.1, SDVal.ofVal kv.2))) :=
  c4_sorted_data_split exFormEmail exSubEmail exDataEmail (by decide) (by decide)
    (by decide) (by decide)

/-- C5: `formatted_data` renders exactly the `sorted_data` entries whose
display key is not on the hidden-fields list, in both the plain and the
HTML rendering; in particular, hiding `"E-mail"` from a submission with
data `{"email": "a@b.com", "Name": "X"}` renders in plain mode to exactly
`"Name: X\n"`. -/
theorem c5_formatted_hides_hidden :
    (∀ (hidden : List Str) (form : Form) (sub : FormSubmission) (html : Bool),
      sub.formatted_data form hidden html =
        (sub.sorted_data form noMeta).map (fun sdl =>
          if html then
            chars ("<dl>") ++ renderAll true (sdl.filter (fun kv => kv.1 ∉ hidden)) ++
              chars ("</dl>")
          else renderAll false (sdl.filter (fun kv => kv.1 ∉ hidden)))) ∧
    FormSubmission.formatted_data exSubEmail exFormEmail [chars ("E-mail")] false =
      some (chars ("Name: X\n")) := by
  constructor
  · intro hidden form sub html
    unfold FormSubmission.formatted_data
    cases h : sub.sorted_data form noMeta with
    | none => rfl
    | some sdl =>
      simp only [Option.map_some']
      rw [formatted_fold hidden html sdl []]
      cases html <;> simp
  · decide

/-- C6 (amended): for every field with a choice-bearing type and choices
`"A, b ,C"`, `get_choices()` yields exactly
`[("a","A"),("b","b"),("c","C")]` — trimmed, slugified, order preserved —
except that when the field is optional and of type `select`, exactly one
blank option precedes these pairs. -/
theorem c6_choices_parsing (f : FormField)
    (hcb : f.ftype = FieldType.select ∨ f.ftype = FieldType.radio ∨
      f.ftype = FieldType.multipleSelect)
    (hch : f.choices = chars ("A, b ,C")) :
    f.get_choices =
      (if f.is_required = false ∧ f.ftype = FieldType.select then BLANK_CHOICE_DASH
        else []) ++
        [(chars ("a"), chars ("A")), (chars ("b"), chars ("b")),
          (chars ("c"), chars ("C"))] := by
  have hsplit : f.splitChoices =
      [(chars ("a"), chars ("A")), (chars ("b"), chars ("b")),
        (chars ("c"), chars ("C"))] := by
    rw [FormField.splitChoices, hch]
    decide
  by_cases hco : f.is_required = false ∧ f.ftype = FieldType.select
  · simp [FormField.get_choices, hco, hsplit]
  · simp [FormField.get_choices, hco, hsplit]

/-- C6 counterexample: an optional `select` field with choices
`"A, b ,C"` is choice-bearing, yet `get_choices()` does not yield exactly
the three claimed pairs — a blank option is prepended. -/
theorem c6_counterexample :
    (exOptSelect.ftype = FieldType.select ∨ exOptSelect.ftype = FieldType.radio ∨
      exOptSelect.ftype = FieldType.multipleSelect) ∧
    exOptSelect.choices = chars ("A, b ,C") ∧
    exOptSelect.get_choices ≠
      [(chars ("a"), chars ("A")), (chars ("b"), chars ("b")),
        (chars ("c"), chars ("C"))] ∧
    exOptSelect.get_choices =
      (chars (""), chars ("---------")) ::
        [(chars ("a"), chars ("A")), (chars ("b"), chars ("b")),
          (chars ("c"), chars ("C"))] := by
  decide

/-- C6 witness: a required `select` field with choices `"A, b ,C"` yields
exactly the three claimed pairs. -/
theorem c6_witness :
    exReqSelect.get_choices =
      [(chars ("a"), chars ("A")), (chars ("b"), chars ("b")),
        (chars ("c"), chars ("C"))] :=
  (c6_choices_parsing exReqSelect (Or.inl (by decide)) (by decide)).trans (by decide)

/-- C7: `get_choices()` prepends exactly one blank option iff the field is
optional and of type exactly `select`; and this holds even when the
choices string is empty. -/
theorem c7_blank_option_iff (f : FormField) :
    (f.get_choices = BLANK_CHOICE_DASH ++ f.splitChoices ↔
      (f.is_required = false ∧ f.ftype = FieldType.select)) ∧
    (f.is_required = false → f.ftype = FieldType.select → f.choices = [] →
      f.get_choices = BLANK_CHOICE_DASH ++ [(([] : Str), ([] : Str))]) := by
  constructor
  · constructor
    · intro h
      by_contra hc
      have hg : f.get_choices = f.splitChoices := by
        simp [FormField.get_choices, hc]
      rw [hg] at h
      have hlen := congrArg List.length h
      simp [BLANK_CHOICE_DASH] at hlen
    · intro hc
      simp [FormField.get_choices, hc]
  · intro h1 h2 h3
    have hs : f.splitChoices = [(([] : Str), ([] : Str))] := by
      rw [FormField.splitChoices, h3]
      decide
    simp [FormField.get_choices, h1, h2, hs]

/-- C7 witness: an optional `select` field with an empty choices string
still gets the blank option prepended. -/
theorem c7_witness :
    exOptSelectEmpty.get_choices = BLANK_CHOICE_DASH ++ [(([] : Str), ([] : Str))] :=
  (c7_blank_option_iff exOptSelectEmpty).2 (by decide) (by decide) (by decide)

/-- C8: `clean` accepts a field iff its choices string is empty or its
type is one of the choice-bearing types (`select`, `radio`,
`multiple-select`); in particular the same non-empty choices fail on a
`text` field and pass on a `select` field. -/
theorem c8_clean_validation :
    (∀ f : FormField, f.clean = Except.ok () ↔
      (f.choices = [] ∨ f.ftype = FieldType.select ∨ f.ftype = FieldType.radio ∨
        f.ftype = FieldType.multipleSelect)) ∧
    ({ exReqSelect with ftype := FieldType.text } : FormField).clean ≠ Except.ok () ∧
    exReqSelect.clean = Except.ok () := by
  refine ⟨?_, by decide, by decide⟩
  intro f
  by_cases hch : f.choices = [] <;>
    cases hft : f.ftype <;>
      simp [FormField.clean, fieldClassOf, isChoiceFieldInstance, hch, hft]

/-- C9: the synthesized form class carries its fields keyed and ordered by
the `(ordering, id)` sort of the owning rows: the name sequence equals the
sorted rows' names, the sorted rows are ordered by `FieldOrder` and are a
permutation of the stored rows, and any insertion order of the same rows
sorts to the same sequence; the concrete `(2,"b"),(1,"a")` example is the
witness. -/
theorem c9_field_order (form : Form)
    (hnames : ((form.fieldsAll).map (fun f => f.name)).Nodup) :
    (form.form).map Prod.fst = (form.fieldsAll).map (fun f => f.name) ∧
    List.Sorted FieldOrder form.fieldsAll ∧
    (form.fieldsAll).Perm form.fields ∧
    (∀ l2 : List FormField, l2.Perm form.fields → (l2.map fieldKey).Nodup →
      l2.insertionSort FieldOrder = form.fieldsAll) := by
  refine ⟨?_, ?_, ?_, ?_⟩
  · unfold Form.form
    rw [show (List.foldl (fun acc f => sdInsert acc f.name f.formfield) []
        form.fieldsAll) = form.fieldsAll.map (fun f => (f.name, f.formfield)) from by
      simpa using foldl_sdInsert (fun f : FormField => f.name)
        (fun f : FormField => f.formfield) form.fieldsAll [] hnames (by simp)]
    simp [List.map_map, Function.comp]
  · exact List.sorted_insertionSort FieldOrder form.fields
  · exact List.perm_insertionSort FieldOrder form.fields
  · intro l2 hperm hnd
    refine sorted_perm_eq _ _ (List.sorted_insertionSort FieldOrder l2)
      (List.sorted_insertionSort FieldOrder form.fields) ?_ ?_
    · exact (List.perm_insertionSort FieldOrder l2).trans
        (hperm.trans (List.perm_insertionSort FieldOrder form.fields).symm)
    · exact (((List.perm_insertionSort FieldOrder l2).map fieldKey).nodup_iff).mpr hnd

/-- C9 witness: rows stored as `(ordering 2, name "b")` then
`(ordering 1, name "a")` synthesize the field sequence `a` then `b`. -/
theorem c9_witness : (exForm9.form).map Prod.fst = [chars ("a"), chars ("b")] :=
  ((c9_field_order exForm9 (by decide)).1).trans (by decide)

/-- C10 (amended): provided display titles are pairwise distinct and no
unmatched stored key coincides with a display title, every current field
with no stored value under its name appears in `sorted_data()` with its
display title mapped to the absent-value marker `None`. -/
theorem c10_missing_value_maps_to_none (form : Form) (sub : FormSubmission)
    (d : List (Str × PyVal))
    (hd : evalPyDict sub.data = some d)
    (ht : ((form.fieldsAll).map (fun f => f.title)).Nodup)
    (hk : (d.map Prod.fst).Nodup)
    (hx : ∀ kv ∈ d, kv.1 ∉ (form.fieldsAll).map (fun f => f.name) →
      kv.1 ∉ (form.fieldsAll).map (fun f => f.title))
    (f : FormField) (hf : f ∈ form.fieldsAll)
    (hnone : alookup d f.name = none) :
    (sub.sorted_data form noMeta).map (fun sdl => alookup sdl f.title) =
      some (some SDVal.pyNone) := by
  have hsplit := sortedDataCore_split form sub d ht hk hx
  simp only [FormSubmission.sorted_data, hd, Option.map_some', hsplit]
  have hmem : f.title ∈
      ((form.fieldsAll).map (fun g => (g.title, fieldLookup d g))).map Prod.fst := by
    simp only [List.map_map, Function.comp]
    exact List.mem_map.mpr ⟨f, hf, rfl⟩
  rw [alookup_append_left _ _ _ hmem,
    alookup_map_of_nodup (fun g => g.title) (fun g => fieldLookup d g) _ f hf ht]
  simp [fieldLookup, hnone]

/-- C10 counterexample: a field (title `"T"`, name `"a"`) with no stored
value under `"a"`, but whose title collides with an unmatched stored key
`"T"`: the title ends up mapped to the stored value, not to `None`. -/
theorem c10_counterexample :
    exField10 ∈ exForm10.fieldsAll ∧
    alookup exData10 exField10.name = none ∧
    (FormSubmission.sorted_data exSub10 exForm10 noMeta).map
        (fun sdl => alookup sdl exField10.title) =
      some (some (SDVal.ofVal (PyVal.str (chars ("x"))))) ∧
    ¬ ((FormSubmission.sorted_data exSub10 exForm10 noMeta).map
        (fun sdl => alookup sdl exField10.title) = some (some SDVal.pyNone)) := by
  decide

/-- C10 witness: a collision-free form whose only field has no stored
value maps that field's title to `None`. -/
theorem c10_witness :
    (FormSubmission.sorted_data exSub10w exForm10w noMeta).map
        (fun sdl => alookup sdl exField10w.title) = some (some SDVal.pyNone) :=
  c10_missing_value_maps_to_none exForm10w exSub10w [] (by decide) (by decide)
    (by decide) (by decide) exField10w (by decide) (by decide)

end FormDesigner
